import Mathlib

/-!
Shallow embedding of src/system_info.py.

The script queries host facilities (shell commands, /proc files, psutil,
statvfs, file I/O) and builds a flat report that is serialized to JSON.
All interactions with the operating system are modelled as explicit inputs
collected in an environment structure; each probe function is translated
from the Python source line by line.  Python strings are manipulated
through helper functions defined below on the underlying character lists,
mirroring the semantics of str.strip, str.split, str.lower, str.startswith,
substring membership and int().  Python floats are modelled as exact
rationals; round(x, nd) is modelled as round-half-to-even at nd decimal
digits, which is what CPython computes on exact values.  A Python
exception escaping a function is modelled with Except String; a swallowed
exception simply selects the corresponding branch.
-/

namespace SysInfo

/-! ### Python string primitives, modelled on the character list -/

/-- Python str.strip with no argument: drop leading and trailing whitespace. -/
def pyStripList (l : List Char) : List Char :=
  ((l.dropWhile Char.isWhitespace).reverse.dropWhile Char.isWhitespace).reverse

/-- Python str.strip on a string. -/
def pyStrip (s : String) : String := String.mk (pyStripList s.data)

/-- Split a character list into maximal whitespace-free words, as Python
str.split with no separator does. -/
def wordsAux : List Char → List Char → List (List Char)
  | [], acc => if acc.isEmpty then [] else [acc.reverse]
  | c :: cs, acc =>
    if c.isWhitespace then
      if acc.isEmpty then wordsAux cs [] else acc.reverse :: wordsAux cs []
    else wordsAux cs (c :: acc)

/-- Python str.split with no separator. -/
def pySplitWs (s : String) : List String := (wordsAux s.data []).map String.mk

/-- Split on a single-character separator, keeping empty pieces, as Python
str.split with a one-character separator does. -/
def splitCharAux (sep : Char) : List Char → List Char → List (List Char)
  | [], acc => [acc.reverse]
  | c :: cs, acc =>
    if c = sep then acc.reverse :: splitCharAux sep cs []
    else splitCharAux sep cs (c :: acc)

/-- Python str.split with a one-character separator. -/
def pySplitChar (s : String) (sep : Char) : List String :=
  (splitCharAux sep s.data []).map String.mk

/-- Is the first list an initial segment of the second? -/
def startsL : List Char → List Char → Bool
  | [], _ => true
  | _ :: _, [] => false
  | p :: ps, c :: cs => p = c && startsL ps cs

/-- Does the pattern occur as a contiguous sublist? -/
def containsL (pat : List Char) : List Char → Bool
  | [] => startsL pat []
  | c :: cs => startsL pat (c :: cs) || containsL pat cs

/-- Python membership test on strings: pat in s. -/
def pyContains (s pat : String) : Bool := containsL pat.data s.data

/-- Python str.startswith. -/
def pyStartsWith (s pat : String) : Bool := startsL pat.data s.data

/-- Python str.lower, for the ASCII range that matters here. -/
def pyLower (s : String) : String := String.mk (s.data.map Char.toLower)

/-- Accumulate decimal digits into a natural number. -/
def natOfDigits : List Char → Nat → Nat
  | [], acc => acc
  | c :: cs, acc => natOfDigits cs (acc * 10 + (c.toNat - 48))

/-- Python int(s) on a string: strips whitespace, accepts an optional sign
followed by at least one decimal digit; any other input raises ValueError,
modelled as Option.none.  (Digit-group underscores are not modelled; no
claim depends on them.) -/
def pyInt? (s : String) : Option Int :=
  match pyStripList s.data with
  | [] => Option.none
  | c :: cs =>
    if c = '-' then
      if !cs.isEmpty && cs.all Char.isDigit then some (-(natOfDigits cs 0 : Int))
      else Option.none
    else if c = '+' then
      if !cs.isEmpty && cs.all Char.isDigit then some ((natOfDigits cs 0 : Int))
      else Option.none
    else
      if (c :: cs).all Char.isDigit then some ((natOfDigits (c :: cs) 0 : Int))
      else Option.none

/-! ### Python round, on exact rationals -/

/-- Floor of a rational, computably. -/
def qfloor (q : ℚ) : Int := Int.fdiv q.num q.den

/-- Round a rational to the nearest integer, ties to even, as Python round
does on exact values. -/
def roundHalfEven (q : ℚ) : Int :=
  let f : Int := qfloor q
  let r : ℚ := q - (f : ℚ)
  if r < 1 / 2 then f
  else if 1 / 2 < r then f + 1
  else if f % 2 = 0 then f else f + 1

/-- Python round(q, nd). -/
def pyRound (q : ℚ) (nd : Nat) : ℚ :=
  (roundHalfEven (q * 10 ^ nd) : ℚ) / 10 ^ nd

/-! ### Scalar values and dictionaries -/

/-- A scalar value that the script stores in its dictionaries: a string, an
int, a float (modelled as an exact rational) or Python None. -/
inductive Scalar where
  | str : String → Scalar
  | int : Int → Scalar
  | num : ℚ → Scalar
  | pyNone : Scalar
deriving DecidableEq

/-- A Python dict with string keys and scalar values, as an association
list in insertion order. -/
abbrev Dict := List (String × Scalar)

/-- The keys of an association list, in order. -/
def keys {α : Type} (d : List (String × α)) : List String := d.map Prod.fst

/-- Python dict assignment d[k] = v: overwrite in place when the key is
present, append otherwise. -/
def dictSet {α : Type} (d : List (String × α)) (k : String) (v : α) :
    List (String × α) :=
  if (keys d).contains k then d.map (fun p => if p.1 = k then (k, v) else p)
  else d ++ [(k, v)]

/-- Lookup of a key in an association list (first match). -/
def dlookup {α : Type} (d : List (String × α)) (k : String) : Option α :=
  match d with
  | [] => Option.none
  | p :: rest => if p.1 = k then some p.2 else dlookup rest k

/-! ### The environment: every operating-system interaction as data -/

/-- Outcome of subprocess.run on one command line: the call itself raises,
or it returns a process with an exit code and captured standard output. -/
inductive CmdOutcome where
  | raises
  | returns (returncode : Int) (stdout : String)

/-- Fields of psutil.virtual_memory used by the script. -/
structure PsutilMem where
  total : Nat
  available : Nat
  percent : ℚ

/-- Fields of os.statvfs used by the script. -/
structure StatvfsResult where
  f_blocks : Nat
  f_frsize : Nat
  f_available : Nat

/-- The host environment seen by the probes. -/
structure Env where
  system : String
  release : String
  python_version : String
  processor : String
  machine : String
  cpu_count : Option Nat
  cmd : String → CmdOutcome
  proc_cpuinfo : Option (List String)
  psutil : Option PsutilMem
  cwd : String
  home : String
  path_exists : String → Bool
  statvfs : String → Option StatvfsResult

/-! ### run_command -/

/-- Translation of run_command: run the command inside try/except; on an
exception or a nonzero exit code return None, otherwise the stripped
standard output.  The function is total, so it never raises. -/
def run_command (env : Env) (c : String) : Option String :=
  match env.cmd c with
  | CmdOutcome.raises => Option.none
  | CmdOutcome.returns rc out => if rc = 0 then some (pyStrip out) else Option.none

/-- Python truthiness of an optional string: None and the empty string are
falsy. -/
def truthyStr (o : Option String) : Bool :=
  match o with
  | some s => s ≠ ""
  | Option.none => false

/-! ### get_cpu_info -/

/-- The initial dict built at the top of get_cpu_info. -/
def base_cpu_info (env : Env) : Dict :=
  [("processor", Scalar.str (if env.processor = "" then "Unknown" else env.processor)),
   ("architecture", Scalar.str env.machine),
   ("python_cpu_count", match env.cpu_count with
     | some n => Scalar.int n
     | Option.none => Scalar.pyNone)]

/-- The brand-string step of the Darwin branch of get_cpu_info. -/
def with_model (env : Env) (info : Dict) : Dict :=
  match run_command env "sysctl -n machdep.cpu.brand_string" with
  | some s => if s ≠ "" then dictSet info "model" (Scalar.str s) else info
  | Option.none => info

/-- The performance/efficiency-cores step of the Darwin branch of
get_cpu_info: when both sysctl outputs are truthy, int() is applied to
each in turn; a non-numeric string raises ValueError, which escapes the
function. -/
def with_cores (perf eff : Option String) (info : Dict) : Except String Dict :=
  if truthyStr perf && truthyStr eff then
    match pyInt? (perf.getD "") with
    | Option.none => Except.error "ValueError"
    | some p =>
      match pyInt? (eff.getD "") with
      | Option.none =>
        Except.error "ValueError"
      | some e =>
        Except.ok (dictSet (dictSet info "performance_cores" (Scalar.int p))
          "efficiency_cores" (Scalar.int e))
  else Except.ok info

/-- The /proc/cpuinfo scan of the Linux branch of get_cpu_info: the first
line starting with model name, split on the colon, second piece stripped.
The whole scan sits in try/except, so a missing file, a missing line or a
line without a colon (IndexError) all leave the model key unset. -/
def linux_cpu_model (cpuinfo : Option (List String)) : Option String :=
  match cpuinfo with
  | Option.none => Option.none
  | some lines =>
    match lines.find? (fun l => pyStartsWith l "model name") with
    | Option.none => Option.none
    | some l =>
      match (pySplitChar l ':').get? 1 with
      | Option.none => Option.none
      | some part => some (pyStrip part)

/-- Translation of get_cpu_info. -/
def get_cpu_info (env : Env) : Except String Dict :=
  let info := base_cpu_info env
  if env.system = "Darwin" then
    with_cores (run_command env "sysctl -n hw.perflevel0.physicalcpu")
      (run_command env "sysctl -n hw.perflevel1.physicalcpu")
      (with_model env info)
  else if env.system = "Linux" then
    Except.ok (match linux_cpu_model env.proc_cpuinfo with
      | some m => dictSet info "model" (Scalar.str m)
      | Option.none => info)
  else Except.ok info

/-! ### get_memory_info -/

/-- Translation of get_memory_info: psutil when importable, otherwise
sysctl on Darwin or /proc/meminfo via grep on Linux.  The int()
conversions sit outside any try/except, so a non-numeric string raises
ValueError (and a MemTotal line with fewer than two fields raises
IndexError), escaping the function. -/
def get_memory_info (env : Env) : Except String Dict :=
  match env.psutil with
  | some mem =>
    Except.ok
      [("total_gb", Scalar.num (pyRound ((mem.total : ℚ) / 2 ^ 30) 2)),
       ("available_gb", Scalar.num (pyRound ((mem.available : ℚ) / 2 ^ 30) 2)),
       ("used_percent", Scalar.num mem.percent)]
  | Option.none =>
    if env.system = "Darwin" then
      let mem_size := run_command env "sysctl -n hw.memsize"
      if truthyStr mem_size then
        match pyInt? (mem_size.getD "") with
        | Option.none => Except.error "ValueError"
        | some v => Except.ok [("total_gb", Scalar.num (pyRound ((v : ℚ) / 2 ^ 30) 2))]
      else Except.ok []
    else if env.system = "Linux" then
      let mem_info := run_command env "grep MemTotal /proc/meminfo"
      if truthyStr mem_info then
        match (pySplitWs (mem_info.getD "")).get? 1 with
        | Option.none => Except.error "IndexError"
        | some f =>
          match pyInt? f with
          | Option.none => Except.error "ValueError"
          | some kb => Except.ok [("total_gb", Scalar.num (pyRound ((kb : ℚ) / 2 ^ 20) 2))]
      else Except.ok []
    else Except.ok []

/-! ### get_filesystem_info -/

/-- The fs_map dict of the Linux branch, applied with .get(result, result). -/
def fs_map_lookup (result : String) : String :=
  if result = "ext4" then "ext4 (likely SSD/HDD)"
  else if result = "xfs" then "XFS"
  else if result = "btrfs" then "Btrfs"
  else if result = "nfs" then "NFS (Network)"
  else if result = "tmpfs" then "tmpfs (RAM)"
  else if result = "zfs" then "ZFS"
  else result

/-- The type-classification step of the Darwin branch, applied to the text
between the parentheses of the mount output and its comma-split,
whitespace-stripped parts. -/
def darwin_type_of (fs_details : String) (fs_parts : List String) (fs_info : Dict) :
    Dict :=
  if fs_parts.contains "apfs" then dictSet fs_info "type" (Scalar.str "APFS (SSD)")
  else if fs_parts.contains "hfs" then dictSet fs_info "type" (Scalar.str "HFS+")
  else if pyContains (pyLower fs_details) "nfs" then
    dictSet fs_info "type" (Scalar.str "NFS (Network)")
  else if pyContains (pyLower fs_details) "smbfs" then
    dictSet fs_info "type" (Scalar.str "SMB (Network)")
  else
    dictSet fs_info "type" (Scalar.str (match fs_parts.head? with
      | some h => h
      | Option.none => "Unknown"))

/-- The mount-attribute step of the Darwin branch. -/
def darwin_mount_type_of (fs_details : String) (fs_parts : List String)
    (fs_info : Dict) : Dict :=
  if fs_parts.contains "local" then dictSet fs_info "mount_type" (Scalar.str "local")
  else if pyContains (pyLower fs_details) "nfs" || pyContains (pyLower fs_details) "smbfs" then
    dictSet fs_info "mount_type" (Scalar.str "network")
  else fs_info

/-- The Darwin branch of the per-path loop of get_filesystem_info: df to
find the mount point, mount plus grep to find the filesystem details, then
classification.  Indexing split output with [-1] would raise IndexError
out of the function, modelled with Except. -/
def darwin_fs_extra (env : Env) (path : String) (fs_info : Dict) :
    Except String Dict :=
  let mount_result := run_command env ("df '" ++ path ++ "' | tail -1")
  if truthyStr mount_result then
    match (pySplitWs (mount_result.getD "")).getLast? with
    | Option.none => Except.error "IndexError"
    | some mount_point =>
      if mount_point ≠ "" then
        let first_try := run_command env ("mount | grep '^" ++ mount_point ++ " '")
        let mount_info := if truthyStr first_try then first_try
          else run_command env ("mount | grep ' " ++ mount_point ++ " '")
        if truthyStr mount_info then
          let mi := mount_info.getD ""
          if pyContains mi "(" then
            match (pySplitChar mi '(').get? 1 with
            | Option.none => Except.error "IndexError"
            | some after =>
              match (pySplitChar after ')').get? 0 with
              | Option.none => Except.error "IndexError"
              | some fs_details =>
                let fs_parts := (pySplitChar fs_details ',').map pyStrip
                Except.ok (darwin_mount_type_of fs_details fs_parts
                  (darwin_type_of fs_details fs_parts fs_info))
          else Except.ok fs_info
        else Except.ok fs_info
      else Except.ok fs_info
  else Except.ok fs_info

/-- The Linux branch of the per-path loop of get_filesystem_info. -/
def linux_fs_extra (env : Env) (path : String) (fs_info : Dict) : Dict :=
  match run_command env ("stat -f -c %T '" ++ path ++ "'") with
  | some result =>
    if result ≠ "" then dictSet fs_info "type" (Scalar.str (fs_map_lookup result))
    else fs_info
  | Option.none => fs_info

/-- The disk-usage step of the per-path loop: os.statvfs and the derived
sizes, inside try/except.  A raising statvfs leaves the dict unchanged;
total_gb and free_gb are assigned before used_percent, so a zero total
(ZeroDivisionError, swallowed by the same except) leaves exactly those two
assigned. -/
def statvfs_extra (env : Env) (path : String) (fs_info : Dict) : Dict :=
  match env.statvfs path with
  | Option.none => fs_info
  | some st =>
    let total_gb : ℚ := ((st.f_blocks * st.f_frsize : Nat) : ℚ) / 2 ^ 30
    let free_gb : ℚ := ((st.f_available * st.f_frsize : Nat) : ℚ) / 2 ^ 30
    let d1 := dictSet fs_info "total_gb" (Scalar.num (pyRound total_gb 2))
    let d2 := dictSet d1 "free_gb" (Scalar.num (pyRound free_gb 2))
    if total_gb = 0 then d2
    else dictSet d2 "used_percent"
      (Scalar.num (pyRound ((total_gb - free_gb) / total_gb * 100) 1))

/-- One iteration of the loop of get_filesystem_info for an existing path:
fs_info starts with the path entry, then the OS-specific type probe, then
disk usage.  An exception from the Darwin branch escapes the function. -/
def fs_entry (env : Env) (path : String) : Except String Dict :=
  if env.system = "Darwin" then
    match darwin_fs_extra env path [("path", Scalar.str path)] with
    | Except.error e => Except.error e
    | Except.ok d => Except.ok (statvfs_extra env path d)
  else if env.system = "Linux" then
    Except.ok (statvfs_extra env path (linux_fs_extra env path [("path", Scalar.str path)]))
  else Except.ok (statvfs_extra env path [("path", Scalar.str path)])

/-- One loop iteration of get_filesystem_info: skip a path that does not
exist, otherwise add the named entry. -/
def fs_item (env : Env) (name path : String) :
    Except String (List (String × Dict)) :=
  if env.path_exists path then
    match fs_entry env path with
    | Except.error e => Except.error e
    | Except.ok d => Except.ok [(name, d)]
  else Except.ok []

/-- Translation of get_filesystem_info: the loop over current_dir, home
and /tmp in order; an exception in an earlier iteration prevents the later
ones. -/
def get_filesystem_info (env : Env) : Except String (List (String × Dict)) :=
  match fs_item env "current_dir" env.cwd with
  | Except.error e => Except.error e
  | Except.ok e1 =>
    match fs_item env "home" env.home with
    | Except.error e => Except.error e
    | Except.ok e2 =>
      match fs_item env "tmp" "/tmp" with
      | Except.error e => Except.error e
      | Except.ok e3 => Except.ok (e1 ++ e2 ++ e3)

/-! ### get_io_performance -/

/-- The name of the temporary file of the I/O probe, relative to the
current working directory. -/
def test_file : String := "io_test_tmp.bin"

/-- The size written by the I/O probe. -/
def test_size : Nat := 100 * 1024 * 1024

/-- Outcome of the write phase of the probe: opening the file for writing
fails (no file is created), writing/flush/fsync fails after the file was
created, or the phase succeeds. -/
inductive WritePhase where
  | open_fails (e : String)
  | write_fails (e : String)
  | ok
deriving DecidableEq

/-- The I/O environment of one probe run: the write-phase outcome and
elapsed time, and the read-phase outcome (some e models an exception with
message e) and elapsed time. -/
structure IoEnv where
  write_phase : WritePhase
  write_time : ℚ
  read_raises : Option String
  read_time : ℚ

/-- Result of the probe: the info dict, and whether io_test_tmp.bin still
exists in the current directory when the function returns. -/
structure IoResult where
  info : Dict
  temp_file_exists : Bool

/-- Translation of get_io_performance.  The whole body sits in one
try/except whose handler stores the exception text under the error key;
os.remove runs only at the end of the try block, so any exception after
the file was created leaves the file behind.  An elapsed time of exactly
zero makes the speed division raise ZeroDivisionError, which the same
handler catches.  os.remove on the file the probe just created is modelled
as succeeding. -/
def get_io_performance (io : IoEnv) : IoResult :=
  match io.write_phase with
  | WritePhase.open_fails e => ⟨[("error", Scalar.str e)], false⟩
  | WritePhase.write_fails e => ⟨[("error", Scalar.str e)], true⟩
  | WritePhase.ok =>
    if io.write_time = 0 then ⟨[("error", Scalar.str "ZeroDivisionError")], true⟩
    else
      let info : Dict := [("write_speed_mb_s",
        Scalar.num (pyRound ((test_size : ℚ) / (1024 * 1024) / io.write_time) 2))]
      match io.read_raises with
      | some e => ⟨dictSet info "error" (Scalar.str e), true⟩
      | Option.none =>
        if io.read_time = 0 then
          ⟨dictSet info "error" (Scalar.str "ZeroDivisionError"), true⟩
        else
          ⟨dictSet info "read_speed_mb_s"
            (Scalar.num (pyRound ((test_size : ℚ) / (1024 * 1024) / io.read_time) 2)),
           false⟩

/-! ### main and the JSON value written to the output file -/

/-- A JSON value, the shape json.dump serializes. -/
inductive JVal where
  | str : String → JVal
  | int : Int → JVal
  | num : ℚ → JVal
  | null : JVal
  | obj : List (String × JVal) → JVal

/-- The JSON value of a scalar. -/
def Scalar.toJ : Scalar → JVal
  | Scalar.str s => JVal.str s
  | Scalar.int n => JVal.int n
  | Scalar.num q => JVal.num q
  | Scalar.pyNone => JVal.null

/-- A dict of scalars as JSON object fields. -/
def dictToJ (d : Dict) : List (String × JVal) := d.map (fun p => (p.1, p.2.toJ))

/-- Is a JSON value a scalar, that is, not an object? -/
def JVal.isScalar : JVal → Bool
  | JVal.obj _ => false
  | _ => true

/-- Lookup in a JSON object field list. -/
def jlookup (fields : List (String × JVal)) (k : String) : Option JVal :=
  match fields with
  | [] => Option.none
  | p :: rest => if p.1 = k then some p.2 else jlookup rest k

/-- Is a JSON value an object all of whose values are scalars? -/
def JVal.isFlatObj : JVal → Bool
  | JVal.obj fields => fields.all (fun p => p.2.isScalar)
  | _ => false

/-- Is a JSON value an object all of whose values are flat objects? -/
def JVal.isNestedObj : JVal → Bool
  | JVal.obj fields => fields.all (fun p => p.2.isFlatObj)
  | _ => false

/-- The environment of one whole run of the script: the probe environment,
the I/O probe environment, the timestamp string, and whether opening and
writing the output JSON file succeeds. -/
structure MainEnv where
  env : Env
  io : IoEnv
  timestamp : String
  write_output_ok : Bool

/-- The all_info dict that main builds and serializes, given the four
probe results. -/
def all_info (m : MainEnv) (cpu mem : Dict) (fs : List (String × Dict))
    (io_info : Dict) : JVal :=
  JVal.obj
    [("timestamp", JVal.str m.timestamp),
     ("platform", JVal.obj
       [("system", JVal.str m.env.system),
        ("release", JVal.str m.env.release),
        ("python", JVal.str m.env.python_version)]),
     ("cpu", JVal.obj (dictToJ cpu)),
     ("memory", JVal.obj (dictToJ mem)),
     ("filesystem", JVal.obj (fs.map (fun p => (p.1, JVal.obj (dictToJ p.2))))),
     ("io_performance", JVal.obj (dictToJ io_info))]

/-- Translation of main: run the four probes in order (an exception from a
probe escapes, since main has no try/except), build all_info, and write it
to the output file; a failing write raises OSError.  The value returned on
success is the JSON object that was written. -/
def main (m : MainEnv) : Except String JVal :=
  match get_cpu_info m.env with
  | Except.error e => Except.error e
  | Except.ok cpu =>
    match get_memory_info m.env with
    | Except.error e => Except.error e
    | Except.ok mem =>
      match get_filesystem_info m.env with
      | Except.error e => Except.error e
      | Except.ok fs =>
        let io_info := (get_io_performance m.io).info
        if m.write_output_ok then Except.ok (all_info m cpu mem fs io_info)
        else Except.error "OSError"

/-- Did an Except-valued computation succeed? -/
def exOk {ε α : Type} : Except ε α → Bool
  | Except.ok _ => true
  | Except.error _ => false

/-- The section named sec of a successfully written report. -/
def jSection (r : Except String JVal) (sec : String) : Option JVal :=
  match r with
  | Except.ok (JVal.obj fields) => jlookup fields sec
  | _ => Option.none

/-- A value two levels down in a successfully written report. -/
def jSection2 (r : Except String JVal) (sec key : String) : Option JVal :=
  match jSection r sec with
  | some (JVal.obj fields) => jlookup fields key
  | _ => Option.none

/-- The top-level keys of a successfully written report. -/
def jTopKeys (r : Except String JVal) : Option (List String) :=
  match r with
  | Except.ok (JVal.obj fields) => some (keys fields)
  | _ => Option.none

/-! ### Concrete inputs used by witnesses and counterexamples -/

/-- A host whose platform.system is neither Darwin nor Linux, with no
psutil, no existing paths and every shell command failing: every probe
takes its trivial branch. -/
def envPlain : Env :=
  { system := "Plan9", release := "1", python_version := "3.11.0",
    processor := "", machine := "mips", cpu_count := some 4,
    cmd := fun _ => CmdOutcome.raises, proc_cpuinfo := Option.none,
    psutil := Option.none, cwd := "/w", home := "/h",
    path_exists := fun _ => false, statvfs := fun _ => Option.none }

/-- envPlain with one shell command that succeeds with padded output. -/
def envCmd : Env :=
  { envPlain with cmd := fun c =>
      if c = "uname -r" then CmdOutcome.returns 0 " 6.1.0 "
      else CmdOutcome.raises }

/-- A Darwin host where sysctl -n hw.perflevel0.physicalcpu prints
non-numeric text with exit code 0 while hw.perflevel1.physicalcpu prints a
number: int() raises ValueError inside get_cpu_info. -/
def envBadCpu : Env :=
  { system := "Darwin", release := "23.0.0", python_version := "3.11.0",
    processor := "arm", machine := "arm64", cpu_count := some 8,
    cmd := fun c =>
      if c = "sysctl -n hw.perflevel0.physicalcpu" then CmdOutcome.returns 0 "abc"
      else if c = "sysctl -n hw.perflevel1.physicalcpu" then CmdOutcome.returns 0 "4"
      else CmdOutcome.raises,
    proc_cpuinfo := Option.none, psutil := some ⟨17179869184, 8589934592, 50⟩,
    cwd := "/w", home := "/h", path_exists := fun _ => false,
    statvfs := fun _ => Option.none }

/-- An I/O probe run where opening the temporary file fails. -/
def ioOpenFail : IoEnv :=
  { write_phase := WritePhase.open_fails "Permission denied",
    write_time := 1, read_raises := Option.none, read_time := 1 }

/-- An I/O probe run where the write phase raises after the file was
created. -/
def ioWriteBoom : IoEnv :=
  { write_phase := WritePhase.write_fails "No space left on device",
    write_time := 1, read_raises := Option.none, read_time := 1 }

/-- An I/O probe run where both phases succeed, in 2 and 4 seconds. -/
def ioAllGood : IoEnv :=
  { write_phase := WritePhase.ok, write_time := 2,
    read_raises := Option.none, read_time := 4 }

/-- A full run on the trivial host with a failing I/O probe and a writable
output file. -/
def mPlain : MainEnv :=
  { env := envPlain, io := ioOpenFail,
    timestamp := "2026-01-01T00:00:00", write_output_ok := true }

/-- A full run on the trivial host except that /tmp exists, so the
filesystem section carries one nested entry while the memory probe
produced nothing. -/
def mFS : MainEnv :=
  { env := { envPlain with path_exists := fun p => p = "/tmp" },
    io := ioOpenFail, timestamp := "2026-01-01T00:00:00",
    write_output_ok := true }

/-- A full run on the Darwin host with the non-numeric sysctl output and a
perfectly writable output file. -/
def mBad : MainEnv :=
  { env := envBadCpu, io := ioOpenFail,
    timestamp := "2026-01-01T00:00:00", write_output_ok := true }

/-- The filesystem report produced on the host of mFS: only /tmp exists,
and its entry holds only the path. -/
def fsTmpList : List (String × Dict) := [("tmp", [("path", Scalar.str "/tmp")])]

/-! ### Dictionary lemmas -/

theorem keys_append {α : Type} (d e : List (String × α)) :
    keys (d ++ e) = keys d ++ keys e := by
  simp [keys]

theorem keys_overwrite {α : Type} (d : List (String × α)) (k : String) (v : α) :
    keys (d.map (fun p => if p.1 = k then (k, v) else p)) = keys d := by
  unfold keys
  rw [List.map_map]
  apply List.map_congr_left
  intro p _
  by_cases h : p.1 = k
  · simp [Function.comp, h]
  · simp [Function.comp, h]

theorem keys_dictSet_cases {α : Type} (d : List (String × α)) (k : String) (v : α) :
    keys (dictSet d k v) = keys d ∨ keys (dictSet d k v) = keys d ++ [k] := by
  unfold dictSet
  split
  · exact Or.inl (keys_overwrite d k v)
  · right
    simp [keys]

theorem mem_keys_dictSet_of {α : Type} {d : List (String × α)} {a : String}
    (k : String) (v : α) (h : a ∈ keys d) : a ∈ keys (dictSet d k v) := by
  rcases keys_dictSet_cases d k v with hc | hc <;> rw [hc] <;> simp [h]

theorem mem_keys_dictSet_self {α : Type} (d : List (String × α)) (k : String) (v : α) :
    k ∈ keys (dictSet d k v) := by
  unfold dictSet
  split
  · next h =>
    rw [keys_overwrite]
    simpa using h
  · simp [keys]

theorem keys_dictSet_subset {α : Type} (d : List (String × α)) (k : String) (v : α) :
    keys (dictSet d k v) ⊆ keys d ++ [k] := by
  rcases keys_dictSet_cases d k v with hc | hc <;> rw [hc]
  · exact List.subset_append_left _ _
  · exact List.Subset.refl _

theorem mem_keys_dictSet_elim {α : Type} {d : List (String × α)} {a k : String}
    {v : α} (h : a ∈ keys (dictSet d k v)) : a ∈ keys d ∨ a = k := by
  have := keys_dictSet_subset d k v h
  simpa using this

/-! ### Key-set lemmas for the probes -/

/-- d extends info using only keys from extra: every key of info is still
present, and every key of d is a key of info or listed in extra. -/
def ExtendsWithin (info d : Dict) (extra : List String) : Prop :=
  (∀ a ∈ keys info, a ∈ keys d) ∧ keys d ⊆ keys info ++ extra

theorem ew_refl (info : Dict) (extra : List String) :
    ExtendsWithin info info extra :=
  ⟨fun _ ha => ha, List.subset_append_left _ _⟩

theorem ew_dictSet {info d : Dict} {extra : List String}
    (h : ExtendsWithin info d extra) (k : String) (v : Scalar) (hk : k ∈ extra) :
    ExtendsWithin info (dictSet d k v) extra := by
  obtain ⟨h1, h2⟩ := h
  refine ⟨fun a ha => mem_keys_dictSet_of k v (h1 a ha), fun a ha => ?_⟩
  rcases mem_keys_dictSet_elim ha with ha | rfl
  · exact h2 ha
  · simp [hk]

theorem ew_trans {i d e : Dict} {extra : List String}
    (h1 : ExtendsWithin i d extra) (h2 : ExtendsWithin d e extra) :
    ExtendsWithin i e extra := by
  obtain ⟨u1, s1⟩ := h1
  obtain ⟨u2, s2⟩ := h2
  refine ⟨fun a ha => u2 a (u1 a ha), fun a ha => ?_⟩
  rcases List.mem_append.mp (s2 ha) with ha | ha
  · exact s1 ha
  · simp [ha]

theorem statvfs_extra_ew (env : Env) (path : String) (info : Dict)
    (extra : List String) (h1 : "total_gb" ∈ extra) (h2 : "free_gb" ∈ extra)
    (h3 : "used_percent" ∈ extra) :
    ExtendsWithin info (statvfs_extra env path info) extra := by
  unfold statvfs_extra
  cases env.statvfs path with
  | none => exact ew_refl info extra
  | some st =>
    dsimp only
    split
    · exact ew_dictSet (ew_dictSet (ew_refl info extra) _ _ h1) _ _ h2
    · exact ew_dictSet (ew_dictSet (ew_dictSet (ew_refl info extra) _ _ h1) _ _ h2)
        _ _ h3

theorem linux_fs_extra_ew (env : Env) (path : String) (info : Dict)
    (extra : List String) (ht : "type" ∈ extra) :
    ExtendsWithin info (linux_fs_extra env path info) extra := by
  unfold linux_fs_extra
  split
  · split
    · exact ew_dictSet (ew_refl info extra) _ _ ht
    · exact ew_refl info extra
  · exact ew_refl info extra

theorem darwin_type_of_ew (s : String) (parts : List String) (info : Dict)
    (extra : List String) (ht : "type" ∈ extra) :
    ExtendsWithin info (darwin_type_of s parts info) extra := by
  unfold darwin_type_of
  repeat' split
  all_goals exact ew_dictSet (ew_refl info extra) _ _ ht

theorem darwin_mount_type_of_ew (s : String) (parts : List String) (info : Dict)
    (extra : List String) (hm : "mount_type" ∈ extra) :
    ExtendsWithin info (darwin_mount_type_of s parts info) extra := by
  unfold darwin_mount_type_of
  repeat' split
  all_goals first
    | exact ew_dictSet (ew_refl info extra) _ _ hm
    | exact ew_refl info extra

theorem darwin_fs_extra_ew (env : Env) (path : String) (info d : Dict)
    (extra : List String) (ht : "type" ∈ extra) (hm : "mount_type" ∈ extra)
    (h : darwin_fs_extra env path info = Except.ok d) :
    ExtendsWithin info d extra := by
  unfold darwin_fs_extra at h
  dsimp only at h
  repeat' split at h
  all_goals first
    | exact Except.noConfusion h
    | (simp only [Except.ok.injEq] at h; subst h; exact ew_refl info extra)
    | (simp only [Except.ok.injEq] at h; subst h;
       exact ew_trans (darwin_type_of_ew _ _ info extra ht)
         (darwin_mount_type_of_ew _ _ _ extra hm))

/-- The keys of one filesystem entry: the path key is always present, and
only the six keys the loop body can assign occur. -/
theorem fs_entry_keys (env : Env) (path : String) (d : Dict)
    (h : fs_entry env path = Except.ok d) :
    "path" ∈ keys d ∧
    keys d ⊆ ["path", "type", "mount_type", "total_gb", "free_gb", "used_percent"] := by
  have hext : ∀ d0 : Dict,
      ExtendsWithin [("path", Scalar.str path)] d0
        ["type", "mount_type", "total_gb", "free_gb", "used_percent"] →
      "path" ∈ keys d0 ∧
      keys d0 ⊆ ["path", "type", "mount_type", "total_gb", "free_gb", "used_percent"] := by
    intro d0 hew
    refine ⟨hew.1 "path" (by simp [keys]), fun a ha => ?_⟩
    have := hew.2 ha
    simpa [keys] using this
  unfold fs_entry at h
  split at h
  · split at h
    · exact Except.noConfusion h
    · next d0 hd0 =>
      simp only [Except.ok.injEq] at h
      subst h
      exact hext _ (ew_trans
        (darwin_fs_extra_ew env path _ d0 _ (by simp) (by simp) hd0)
        (statvfs_extra_ew env path d0 _ (by simp) (by simp) (by simp)))
  · split at h
    · simp only [Except.ok.injEq] at h
      subst h
      exact hext _ (ew_trans
        (linux_fs_extra_ew env path _ _ (by simp))
        (statvfs_extra_ew env path _ _ (by simp) (by simp) (by simp)))
    · simp only [Except.ok.injEq] at h
      subst h
      exact hext _ (statvfs_extra_ew env path _ _ (by simp) (by simp) (by simp))

/-- Properties of one loop iteration of get_filesystem_info: at most the
one given name is added, only when the path exists, and any added entry
carries the path key and only the six possible keys. -/
theorem fs_item_props (env : Env) (name path : String) (l : List (String × Dict))
    (h : fs_item env name path = Except.ok l) :
    keys l ⊆ [name] ∧
    (keys l ≠ [] → env.path_exists path = true) ∧
    (∀ p ∈ l, "path" ∈ keys p.2 ∧
      keys p.2 ⊆ ["path", "type", "mount_type", "total_gb", "free_gb", "used_percent"]) := by
  unfold fs_item at h
  split at h
  · next hex =>
    split at h
    · exact Except.noConfusion h
    · next d hd =>
      simp only [Except.ok.injEq] at h
      subst h
      refine ⟨by simp [keys], fun _ => hex, ?_⟩
      intro p hp
      simp only [List.mem_singleton] at hp
      subst hp
      exact fs_entry_keys env path d hd
  · simp only [Except.ok.injEq] at h
    subst h
    exact ⟨by simp [keys], by simp [keys], by simp⟩

/-- Shape of the whole filesystem report: keys are among the three names,
each name is present only when its path exists, and every entry carries
the path key and only the six possible keys. -/
theorem get_filesystem_info_shape (env : Env) (l : List (String × Dict))
    (h : get_filesystem_info env = Except.ok l) :
    keys l ⊆ ["current_dir", "home", "tmp"] ∧
    ("current_dir" ∈ keys l → env.path_exists env.cwd = true) ∧
    ("home" ∈ keys l → env.path_exists env.home = true) ∧
    ("tmp" ∈ keys l → env.path_exists "/tmp" = true) ∧
    (∀ p ∈ l, "path" ∈ keys p.2 ∧
      keys p.2 ⊆ ["path", "type", "mount_type", "total_gb", "free_gb", "used_percent"]) := by
  unfold get_filesystem_info at h
  split at h
  · exact Except.noConfusion h
  next e1 h1 =>
  split at h
  · exact Except.noConfusion h
  next e2 h2 =>
  split at h
  · exact Except.noConfusion h
  next e3 h3 =>
  simp only [Except.ok.injEq] at h
  subst h
  obtain ⟨s1, x1, m1⟩ := fs_item_props env "current_dir" env.cwd e1 h1
  obtain ⟨s2, x2, m2⟩ := fs_item_props env "home" env.home e2 h2
  obtain ⟨s3, x3, m3⟩ := fs_item_props env "tmp" "/tmp" e3 h3
  refine ⟨?_, ?_, ?_, ?_, ?_⟩
  · intro a ha
    rw [keys_append, keys_append] at ha
    rcases List.mem_append.mp ha with ha | ha
    · rcases List.mem_append.mp ha with ha | ha
      · have := s1 ha
        simp only [List.mem_singleton] at this
        simp [this]
      · have := s2 ha
        simp only [List.mem_singleton] at this
        simp [this]
    · have := s3 ha
      simp only [List.mem_singleton] at this
      simp [this]
  · intro hmem
    rw [keys_append, keys_append] at hmem
    rcases List.mem_append.mp hmem with hmem | hmem
    · rcases List.mem_append.mp hmem with hmem | hmem
      · exact x1 (List.ne_nil_of_mem hmem)
      · have := s2 hmem
        simp at this
    · have := s3 hmem
      simp at this
  · intro hmem
    rw [keys_append, keys_append] at hmem
    rcases List.mem_append.mp hmem with hmem | hmem
    · rcases List.mem_append.mp hmem with hmem | hmem
      · have := s1 hmem
        simp at this
      · exact x2 (List.ne_nil_of_mem hmem)
    · have := s3 hmem
      simp at this
  · intro hmem
    rw [keys_append, keys_append] at hmem
    rcases List.mem_append.mp hmem with hmem | hmem
    · rcases List.mem_append.mp hmem with hmem | hmem
      · have := s1 hmem
        simp at this
      · have := s2 hmem
        simp at this
    · exact x3 (List.ne_nil_of_mem hmem)
  · intro p hp
    rcases List.mem_append.mp hp with hp | hp
    · rcases List.mem_append.mp hp with hp | hp
      · exact m1 p hp
      · exact m2 p hp
    · exact m3 p hp

/-! ### Claim C10 -/

/-- C10: the keys of the filesystem report are a subset of current_dir,
home and tmp; a key is present only when the corresponding path exists on
the host; and every entry contains a path value. -/
theorem c10_fs_keys (env : Env) (l : List (String × Dict))
    (h : get_filesystem_info env = Except.ok l) :
    keys l ⊆ ["current_dir", "home", "tmp"] ∧
    ("current_dir" ∈ keys l → env.path_exists env.cwd = true) ∧
    ("home" ∈ keys l → env.path_exists env.home = true) ∧
    ("tmp" ∈ keys l → env.path_exists "/tmp" = true) ∧
    (∀ p ∈ l, "path" ∈ keys p.2) := by
  obtain ⟨s, hc, hh, ht, hm⟩ := get_filesystem_info_shape env l h
  exact ⟨s, hc, hh, ht, fun p hp => (hm p hp).1⟩

/-- C10 witness: a host where only /tmp exists, giving a one-entry report
whose entry carries its path. -/
theorem c10_witness :
    keys fsTmpList ⊆ ["current_dir", "home", "tmp"] ∧
    ("current_dir" ∈ keys fsTmpList → mFS.env.path_exists mFS.env.cwd = true) ∧
    ("home" ∈ keys fsTmpList → mFS.env.path_exists mFS.env.home = true) ∧
    ("tmp" ∈ keys fsTmpList → mFS.env.path_exists "/tmp" = true) ∧
    (∀ p ∈ fsTmpList, "path" ∈ keys p.2) :=
  c10_fs_keys mFS.env fsTmpList rfl

/-! ### Key-set lemmas for the CPU and memory probes -/

theorem dictSet_fresh {α : Type} (d : List (String × α)) (k : String) (v : α)
    (h : (keys d).contains k = false) : dictSet d k v = d ++ [(k, v)] := by
  unfold dictSet
  rw [h]
  simp

theorem keys_base_cpu_info (env : Env) :
    keys (base_cpu_info env) = ["processor", "architecture", "python_cpu_count"] :=
  rfl

theorem keys_with_model (env : Env) (info : Dict) :
    keys (with_model env info) = keys info ∨
    keys (with_model env info) = keys info ++ ["model"] := by
  unfold with_model
  cases run_command env "sysctl -n machdep.cpu.brand_string" with
  | none => exact Or.inl rfl
  | some s =>
    dsimp only
    by_cases h : s = ""
    · rw [if_neg (by simp [h])]
      exact Or.inl rfl
    · rw [if_pos (by simp [h])]
      exact keys_dictSet_cases info "model" (Scalar.str s)

theorem with_cores_cases (perf eff : Option String) (info d : Dict)
    (h : with_cores perf eff info = Except.ok d) :
    d = info ∨ ∃ p e, d = dictSet (dictSet info "performance_cores" (Scalar.int p))
      "efficiency_cores" (Scalar.int e) := by
  unfold with_cores at h
  split at h
  · split at h
    · exact Except.noConfusion h
    · split at h
      · exact Except.noConfusion h
      · simp only [Except.ok.injEq] at h
        exact Or.inr ⟨_, _, h.symm⟩
  · simp only [Except.ok.injEq] at h
    exact Or.inl h.symm

/-- The four possible key lists of a returned CPU report. -/
theorem get_cpu_info_keys_cases (env : Env) (d : Dict)
    (h : get_cpu_info env = Except.ok d) :
    keys d = ["processor", "architecture", "python_cpu_count"] ∨
    keys d = ["processor", "architecture", "python_cpu_count", "model"] ∨
    keys d = ["processor", "architecture", "python_cpu_count",
      "performance_cores", "efficiency_cores"] ∨
    keys d = ["processor", "architecture", "python_cpu_count", "model",
      "performance_cores", "efficiency_cores"] := by
  unfold get_cpu_info at h
  dsimp only at h
  split at h
  · rcases with_cores_cases _ _ _ _ h with rfl | ⟨p, e, rfl⟩
    · rcases keys_with_model env (base_cpu_info env) with hk | hk <;>
        rw [keys_base_cpu_info] at hk
      · exact Or.inl hk
      · exact Or.inr (Or.inl hk)
    · rcases keys_with_model env (base_cpu_info env) with hk | hk <;>
        rw [keys_base_cpu_info] at hk
      · have h1 : dictSet (with_model env (base_cpu_info env)) "performance_cores"
            (Scalar.int p)
            = with_model env (base_cpu_info env) ++ [("performance_cores", Scalar.int p)] :=
          dictSet_fresh _ _ _ (by rw [hk]; decide)
        have h2 : dictSet (with_model env (base_cpu_info env) ++
              [("performance_cores", Scalar.int p)]) "efficiency_cores" (Scalar.int e)
            = (with_model env (base_cpu_info env) ++ [("performance_cores", Scalar.int p)])
              ++ [("efficiency_cores", Scalar.int e)] := by
          apply dictSet_fresh
          rw [keys_append, hk]
          simp [keys]
        refine Or.inr (Or.inr (Or.inl ?_))
        rw [h1, h2, keys_append, keys_append, hk]
        simp [keys]
      · have h1 : dictSet (with_model env (base_cpu_info env)) "performance_cores"
            (Scalar.int p)
            = with_model env (base_cpu_info env) ++ [("performance_cores", Scalar.int p)] :=
          dictSet_fresh _ _ _ (by rw [hk]; decide)
        have h2 : dictSet (with_model env (base_cpu_info env) ++
              [("performance_cores", Scalar.int p)]) "efficiency_cores" (Scalar.int e)
            = (with_model env (base_cpu_info env) ++ [("performance_cores", Scalar.int p)])
              ++ [("efficiency_cores", Scalar.int e)] := by
          apply dictSet_fresh
          rw [keys_append, hk]
          simp [keys]
        refine Or.inr (Or.inr (Or.inr ?_))
        rw [h1, h2, keys_append, keys_append, hk]
        simp [keys]
  · split at h
    · simp only [Except.ok.injEq] at h
      split at h
      · subst h
        rcases keys_dictSet_cases (base_cpu_info env) "model" _ with hk | hk <;>
          rw [keys_base_cpu_info] at hk
        · exact Or.inl hk
        · exact Or.inr (Or.inl hk)
      · subst h
        exact Or.inl (keys_base_cpu_info env)
    · simp only [Except.ok.injEq] at h
      subst h
      exact Or.inl (keys_base_cpu_info env)

/-- The three possible key lists of a returned memory report. -/
theorem get_memory_info_keys_cases (env : Env) (d : Dict)
    (h : get_memory_info env = Except.ok d) :
    keys d = ["total_gb", "available_gb", "used_percent"] ∨
    keys d = ["total_gb"] ∨ keys d = [] := by
  unfold get_memory_info at h
  dsimp only at h
  repeat' split at h
  all_goals first
    | exact Except.noConfusion h
    | (simp only [Except.ok.injEq] at h; subst h; simp [keys])

/-! ### Claim C9 -/

/-- C9: every returned CPU report contains the processor, architecture and
python_cpu_count keys, and the performance_cores and efficiency_cores keys
are either both present or both absent. -/
theorem c9_cpu_keys (env : Env) (d : Dict) (h : get_cpu_info env = Except.ok d) :
    "processor" ∈ keys d ∧ "architecture" ∈ keys d ∧
    "python_cpu_count" ∈ keys d ∧
    ("performance_cores" ∈ keys d ↔ "efficiency_cores" ∈ keys d) := by
  rcases get_cpu_info_keys_cases env d h with hk | hk | hk | hk <;> rw [hk] <;>
    exact ⟨by decide, by decide, by decide, by decide⟩

/-- C9 witness: a host that is neither Darwin nor Linux returns the bare
three-key report. -/
theorem c9_witness :
    "processor" ∈ keys (base_cpu_info envPlain) ∧
    "architecture" ∈ keys (base_cpu_info envPlain) ∧
    "python_cpu_count" ∈ keys (base_cpu_info envPlain) ∧
    ("performance_cores" ∈ keys (base_cpu_info envPlain) ↔
     "efficiency_cores" ∈ keys (base_cpu_info envPlain)) :=
  c9_cpu_keys envPlain (base_cpu_info envPlain) rfl

/-! ### Claim C1 -/

/-- C1 counterexample: when the write phase of the I/O probe raises after
the temporary file was created, get_io_performance returns with the file
still present in the current directory, so the claimed deletion on the
exception path does not happen. -/
theorem c1_counterexample :
    ioWriteBoom.write_phase = WritePhase.write_fails "No space left on device" ∧
    (get_io_performance ioWriteBoom).temp_file_exists = true :=
  ⟨rfl, rfl⟩

/-- C1 amended: the temporary file is absent after get_io_performance
returns exactly when either opening it failed (so it was never created) or
the whole probe succeeded (write phase ok, read phase ok, both elapsed
times nonzero) and the cleanup ran; any exception after creation leaves
the file behind. -/
theorem c1_amended_cleanup (io : IoEnv) :
    (get_io_performance io).temp_file_exists = false ↔
      ((∃ e, io.write_phase = WritePhase.open_fails e) ∨
       (io.write_phase = WritePhase.ok ∧ io.write_time ≠ 0 ∧
        io.read_raises = Option.none ∧ io.read_time ≠ 0)) := by
  obtain ⟨wp, wt, rr, rt⟩ := io
  cases wp with
  | open_fails e => simp [get_io_performance]
  | write_fails e => simp [get_io_performance]
  | ok =>
    by_cases hw : wt = 0
    · simp [get_io_performance, hw]
    · cases rr with
      | none =>
        by_cases hr : rt = 0 <;> simp [get_io_performance, hw, hr]
      | some e => simp [get_io_performance, hw]

/-! ### Claim C7 -/

/-- C7: the temporary file of the I/O probe is the relative path
io_test_tmp.bin (hence in the current working directory), its size is
exactly 100 * 1024 * 1024 bytes, test_size / (1024 * 1024) is 100, and on
a successful probe the reported speeds are round(100 / elapsed, 2) for the
write and read timings. -/
theorem c7_io_test_size (io : IoEnv) (h1 : io.write_phase = WritePhase.ok)
    (h2 : io.write_time ≠ 0) (h3 : io.read_raises = Option.none)
    (h4 : io.read_time ≠ 0) :
    test_file = "io_test_tmp.bin" ∧
    test_size = 100 * 1024 * 1024 ∧
    (test_size : ℚ) / (1024 * 1024) = 100 ∧
    dlookup (get_io_performance io).info "write_speed_mb_s" =
      some (Scalar.num (pyRound (100 / io.write_time) 2)) ∧
    dlookup (get_io_performance io).info "read_speed_mb_s" =
      some (Scalar.num (pyRound (100 / io.read_time) 2)) := by
  have hts : (test_size : ℚ) / (1024 * 1024) = 100 := by
    norm_num [test_size]
  refine ⟨rfl, rfl, hts, ?_, ?_⟩ <;>
    simp [get_io_performance, h1, h2, h3, h4, hts, dictSet, keys, dlookup]

/-- C7 witness: a probe that writes in 2 seconds and reads in 4 seconds. -/
theorem c7_witness :
    test_file = "io_test_tmp.bin" ∧
    test_size = 100 * 1024 * 1024 ∧
    (test_size : ℚ) / (1024 * 1024) = 100 ∧
    dlookup (get_io_performance ioAllGood).info "write_speed_mb_s" =
      some (Scalar.num (pyRound (100 / ioAllGood.write_time) 2)) ∧
    dlookup (get_io_performance ioAllGood).info "read_speed_mb_s" =
      some (Scalar.num (pyRound (100 / ioAllGood.read_time) 2)) :=
  c7_io_test_size ioAllGood rfl (by norm_num [ioAllGood]) rfl
    (by norm_num [ioAllGood])

/-! ### Claim C8 -/

/-- C8: run_command is a total function (the try/except swallows every
exception from subprocess.run, so it never raises); it returns the
stripped standard output exactly when the command ran and exited with
return code 0, and None when the exit code is nonzero or the call raised. -/
theorem c8_run_command_spec (env : Env) (c : String) :
    (∀ out, env.cmd c = CmdOutcome.returns 0 out →
      run_command env c = some (pyStrip out)) ∧
    (∀ rc out, env.cmd c = CmdOutcome.returns rc out → rc ≠ 0 →
      run_command env c = Option.none) ∧
    (env.cmd c = CmdOutcome.raises → run_command env c = Option.none) := by
  refine ⟨fun out h => ?_, fun rc out h hrc => ?_, fun h => ?_⟩
  · simp [run_command, h]
  · simp [run_command, h, hrc]
  · simp [run_command, h]

/-- C8 witness: one command that exits 0 with padded output, stripped in
the return value. -/
theorem c8_witness : run_command envCmd "uname -r" = some "6.1.0" :=
  (c8_run_command_spec envCmd "uname -r").1 " 6.1.0 " rfl

/-! ### Claim C2 -/

/-- C2 counterexample: when the write phase of the I/O probe raises, the
probe stores the exception text under an error key in its own section, so
this failure is not swallowed with the field simply omitted. -/
theorem c2_counterexample :
    dlookup (get_io_performance ioWriteBoom).info "error" =
      some (Scalar.str "No space left on device") ∧
    "error" ∈ keys (get_io_performance ioWriteBoom).info :=
  ⟨rfl, by decide⟩

/-- C2 amended: the CPU, memory and filesystem probes swallow their
failures silently and never produce an error field, but the I/O probe
records its own failure: its section contains an error key exactly when
the probe did not complete cleanly. -/
theorem c2_amended_error_field :
    (∀ io : IoEnv,
      ("error" ∈ keys (get_io_performance io).info ↔
        ¬ (io.write_phase = WritePhase.ok ∧ io.write_time ≠ 0 ∧
           io.read_raises = Option.none ∧ io.read_time ≠ 0))) ∧
    (∀ env d, get_cpu_info env = Except.ok d → "error" ∉ keys d) ∧
    (∀ env d, get_memory_info env = Except.ok d → "error" ∉ keys d) ∧
    (∀ env l, get_filesystem_info env = Except.ok l →
      ∀ p ∈ l, "error" ∉ keys p.2) := by
  refine ⟨?_, ?_, ?_, ?_⟩
  · intro io
    obtain ⟨wp, wt, rr, rt⟩ := io
    cases wp with
    | open_fails e => simp [get_io_performance, keys]
    | write_fails e => simp [get_io_performance, keys]
    | ok =>
      by_cases hw : wt = 0
      · simp [get_io_performance, hw, keys]
      · cases rr with
        | none =>
          by_cases hr : rt = 0 <;>
            simp [get_io_performance, hw, hr, keys, dictSet]
        | some e => simp [get_io_performance, hw, keys, dictSet]
  · intro env d h
    rcases get_cpu_info_keys_cases env d h with hk | hk | hk | hk <;> rw [hk] <;>
      decide
  · intro env d h
    rcases get_memory_info_keys_cases env d h with hk | hk | hk <;> rw [hk] <;>
      decide
  · intro env l h p hp hmem
    obtain ⟨-, -, -, -, hm⟩ := get_filesystem_info_shape env l h
    have := (hm p hp).2 hmem
    simp at this

/-- C2 amended witness: the failing open of the temporary file leaves an
error field in the I/O section. -/
theorem c2_amended_witness :
    "error" ∈ keys (get_io_performance ioOpenFail).info :=
  (c2_amended_error_field.1 ioOpenFail).mpr (by simp [ioOpenFail])

/-! ### Claim C3 -/

/-- C3 counterexample: on a Darwin host where sysctl prints non-numeric
text for the performance-core count, int() raises ValueError out of
get_cpu_info and main terminates with an uncaught exception even though
the output file is perfectly writable, so inability to write the output is
not the only fatal condition. -/
theorem c3_counterexample :
    mBad.write_output_ok = true ∧ main mBad = Except.error "ValueError" :=
  ⟨rfl, rfl⟩

/-- C3 amended: main completes without an uncaught exception exactly when
the CPU, memory and filesystem probes all return (the int conversions in
the CPU and memory probes can raise on malformed sysctl or /proc/meminfo
output, outside any try/except) and the final output file can be written;
the I/O probe and run_command can never raise. -/
theorem c3_amended_fatal_iff (m : MainEnv) :
    exOk (main m) =
      (exOk (get_cpu_info m.env) && exOk (get_memory_info m.env) &&
       exOk (get_filesystem_info m.env) && m.write_output_ok) := by
  unfold main
  cases h1 : get_cpu_info m.env <;> simp [exOk]
  cases h2 : get_memory_info m.env <;> simp [exOk]
  cases h3 : get_filesystem_info m.env <;> simp [exOk]
  cases hw : m.write_output_ok <;> simp [exOk, hw]

/-! ### Shape of the report written by main -/

/-- When main returns, all four probes returned, the output write
succeeded, and the returned JSON value is exactly all_info applied to the
four probe results. -/
theorem main_ok_shape (m : MainEnv) (j : JVal) (h : main m = Except.ok j) :
    ∃ cpu mem fs, get_cpu_info m.env = Except.ok cpu ∧
      get_memory_info m.env = Except.ok mem ∧
      get_filesystem_info m.env = Except.ok fs ∧
      m.write_output_ok = true ∧
      j = all_info m cpu mem fs (get_io_performance m.io).info := by
  unfold main at h
  split at h
  · exact Except.noConfusion h
  next cpu hc =>
  split at h
  · exact Except.noConfusion h
  next mem hm =>
  split at h
  · exact Except.noConfusion h
  next fs hf =>
  dsimp only at h
  split at h
  · next hw =>
    simp only [Except.ok.injEq] at h
    exact ⟨cpu, mem, fs, hc, hm, hf, hw, h.symm⟩
  · exact Except.noConfusion h

/-- A dict of scalars serializes to a flat JSON object. -/
theorem dictToJ_flat (d : Dict) : (JVal.obj (dictToJ d)).isFlatObj = true := by
  induction d with
  | nil => rfl
  | cons a t ih =>
    simp only [dictToJ, JVal.isFlatObj, List.map_cons, List.all_cons,
      Bool.and_eq_true] at ih ⊢
    refine ⟨?_, ih⟩
    cases a.2 <;> rfl

/-- The filesystem report serializes to an object of flat objects. -/
theorem fs_nested (fs : List (String × Dict)) :
    (JVal.obj (fs.map fun p => (p.1, JVal.obj (dictToJ p.2)))).isNestedObj = true := by
  induction fs with
  | nil => rfl
  | cons a t ih =>
    simp only [JVal.isNestedObj, List.map_cons, List.all_cons,
      Bool.and_eq_true] at ih ⊢
    exact ⟨dictToJ_flat a.2, ih⟩

/-! ### Claim C4 -/

/-- C4: whenever main writes its JSON file, the written object contains a
top-level timestamp key and a top-level platform object that itself
contains the system, release and python keys, whatever the probes did.
The value is a finite tree of objects and scalars, so its serialization by
json.dump is well-formed JSON by construction. -/
theorem c4_output_structure (m : MainEnv) (h : exOk (main m) = true) :
    jSection (main m) "timestamp" = some (JVal.str m.timestamp) ∧
    jSection (main m) "platform" = some (JVal.obj
      [("system", JVal.str m.env.system), ("release", JVal.str m.env.release),
       ("python", JVal.str m.env.python_version)]) ∧
    jSection2 (main m) "platform" "system" = some (JVal.str m.env.system) ∧
    jSection2 (main m) "platform" "release" = some (JVal.str m.env.release) ∧
    jSection2 (main m) "platform" "python" = some (JVal.str m.env.python_version) := by
  cases hex : main m with
  | error e =>
    rw [hex] at h
    exact Bool.noConfusion h
  | ok j =>
    obtain ⟨cpu, mem, fs, -, -, -, -, hj⟩ := main_ok_shape m j hex
    subst hj
    exact ⟨rfl, rfl, rfl, rfl, rfl⟩

/-- C4 witness: a run on the trivial host writes its report with the
timestamp and platform structure in place. -/
theorem c4_witness :
    jSection (main mPlain) "timestamp" = some (JVal.str mPlain.timestamp) ∧
    jSection (main mPlain) "platform" = some (JVal.obj
      [("system", JVal.str mPlain.env.system),
       ("release", JVal.str mPlain.env.release),
       ("python", JVal.str mPlain.env.python_version)]) ∧
    jSection2 (main mPlain) "platform" "system" = some (JVal.str mPlain.env.system) ∧
    jSection2 (main mPlain) "platform" "release" = some (JVal.str mPlain.env.release) ∧
    jSection2 (main mPlain) "platform" "python" =
      some (JVal.str mPlain.env.python_version) :=
  c4_output_structure mPlain rfl

/-! ### Claim C5 -/

/-- C5 counterexample: on a host where /tmp exists, the filesystem section
of the written report maps tmp to a nested mapping, not to a scalar, so
not every section is a mapping from strings to scalars only. -/
theorem c5_counterexample :
    jSection2 (main mFS) "filesystem" "tmp" =
      some (JVal.obj [("path", JVal.str "/tmp")]) ∧
    (JVal.obj [("path", JVal.str "/tmp")]).isScalar = false :=
  ⟨rfl, rfl⟩

/-- C5 amended: in every written report the cpu, memory and io_performance
sections are flat mappings from string keys to scalar values, while the
filesystem section maps each path name to a nested mapping from string
keys to scalar values; there is no deeper nesting. -/
theorem c5_amended_sections (m : MainEnv) (h : exOk (main m) = true) :
    (jSection (main m) "cpu").map JVal.isFlatObj = some true ∧
    (jSection (main m) "memory").map JVal.isFlatObj = some true ∧
    (jSection (main m) "io_performance").map JVal.isFlatObj = some true ∧
    (jSection (main m) "filesystem").map JVal.isNestedObj = some true := by
  cases hex : main m with
  | error e =>
    rw [hex] at h
    exact Bool.noConfusion h
  | ok j =>
    obtain ⟨cpu, mem, fs, -, -, -, -, hj⟩ := main_ok_shape m j hex
    subst hj
    refine ⟨?_, ?_, ?_, ?_⟩
    · show (some (JVal.obj (dictToJ cpu))).map JVal.isFlatObj = some true
      simp [dictToJ_flat]
    · show (some (JVal.obj (dictToJ mem))).map JVal.isFlatObj = some true
      simp [dictToJ_flat]
    · show (some (JVal.obj (dictToJ (get_io_performance m.io).info))).map
        JVal.isFlatObj = some true
      simp [dictToJ_flat]
    · show (some (JVal.obj (fs.map fun p => (p.1, JVal.obj (dictToJ p.2))))).map
        JVal.isNestedObj = some true
      simp [fs_nested]

/-- C5 amended witness: the trivial run has flat cpu, memory and
io_performance sections and a nested filesystem section. -/
theorem c5_witness :
    (jSection (main mPlain) "cpu").map JVal.isFlatObj = some true ∧
    (jSection (main mPlain) "memory").map JVal.isFlatObj = some true ∧
    (jSection (main mPlain) "io_performance").map JVal.isFlatObj = some true ∧
    (jSection (main mPlain) "filesystem").map JVal.isNestedObj = some true :=
  c5_amended_sections mPlain rfl

/-! ### Claim C6 -/

/-- C6 counterexample: on the host of mFS the memory probe returns the
empty mapping, yet the memory key still appears in the written report, so
a section key can be present although its probe produced no values. -/
theorem c6_counterexample :
    get_memory_info mFS.env = Except.ok [] ∧
    jTopKeys (main mFS) =
      some ["timestamp", "platform", "cpu", "memory", "filesystem", "io_performance"] :=
  ⟨rfl, rfl⟩

/-- C6 amended: every written report carries exactly the six top-level
keys timestamp, platform, cpu, memory, filesystem and io_performance,
even when a probe produced no values (its section is then an empty
mapping). -/
theorem c6_amended_top_keys (m : MainEnv) (h : exOk (main m) = true) :
    jTopKeys (main m) =
      some ["timestamp", "platform", "cpu", "memory", "filesystem", "io_performance"] := by
  cases hex : main m with
  | error e =>
    rw [hex] at h
    exact Bool.noConfusion h
  | ok j =>
    obtain ⟨cpu, mem, fs, -, -, -, -, hj⟩ := main_ok_shape m j hex
    subst hj
    rfl

/-- C6 amended witness: the trivial run writes the six top-level keys. -/
theorem c6_witness :
    jTopKeys (main mPlain) =
      some ["timestamp", "platform", "cpu", "memory", "filesystem", "io_performance"] :=
  c6_amended_top_keys mPlain rfl

end SysInfo
